import Mathlib

/-!
Verification of the interception-detection core of the `tracon` repository
(`src/interception.rs`, `src/lib.rs`).

Shallow embedding conventions:
* `f64` quantities (speeds in knots, longitude/latitude in degrees) are
  modelled as `ℚ`; the Haversine distance, which involves trigonometry, is
  modelled as a function into `ℝ`.
* `i32` altitudes are modelled as `ℤ` (no overflow occurs in any claim).
* `chrono::DateTime<Utc>` is modelled as `ℤ` (seconds); `chrono::Duration`
  values are integer numbers of seconds, so `Duration::minutes(10)` is `600`
  and `Duration::num_minutes` is truncating division by `60`
  (`Int.tdiv`, which rounds towards zero exactly like Rust `i64` division).
* A Rust panic (an `unwrap` of `None`/`Err`) is modelled by `Option`:
  a function that can panic returns `none` in exactly the panicking cases.
* `HashMap<String, Ac>` is modelled as an association list; the only
  order-sensitive iteration in the source is over `response.aircraft`,
  which is a `Vec` and is modelled in order.  `HashMap::retain` is a
  pointwise filter, so modelling it as a list filter is faithful.
* The r-tree query `locate_within_distance(p, r2)` returns the elements
  whose squared planar distance to `p` is at most `r2`; the iteration order
  of the query is unspecified in `rstar`, and is modelled here as the
  insertion order of the indexed points.
-/

namespace Tracon

/-- Planar point, stored as (longitude, latitude) in degrees, matching the
source's `[f64; 2]` layout `[lon, lat]`. -/
abbrev Pt : Type := ℚ × ℚ

/-- Timestamped position entry of the `coords` history. -/
abbrev Entry : Type := ℤ × Pt

/-- Absolute value of a rational, written as the source's `f64::abs`. -/
def qabs (q : ℚ) : ℚ := if q < 0 then -q else q

/-- Absolute value of an integer, written as the source's `i64::abs` /
`i32::abs`. -/
def zabs (d : ℤ) : ℤ := if d < 0 then -d else d

/-- chrono `Duration::num_minutes` on a duration of `d` seconds: division by
60 truncating towards zero (Rust integer division). -/
def numMinutes (d : ℤ) : ℤ := d.tdiv 60

/-- `adsbx_json::v2::AltitudeOrGround`. -/
inductive AltOrGround : Type
  | onGround : AltOrGround
  | altitude : ℤ → AltOrGround
  deriving DecidableEq

/-- `alt_number` from `src/lib.rs`: turns an altitude into a number, ground
mapping to 0. -/
def alt_number : AltOrGround → ℤ
  | AltOrGround.onGround => 0
  | AltOrGround.altitude a => a

/-- The fields of `adsbx_json::v2::Aircraft` consumed by the core. -/
structure Rec : Type where
  hex : String
  lat : Option ℚ
  lon : Option ℚ
  ground_speed_knots : Option ℚ
  geometric_altitude : Option ℤ
  barometric_altitude : Option AltOrGround
  seen_pos : Option ℤ
  deriving DecidableEq

/-- `aircraft_is_on_ground` from `src/lib.rs`. -/
def aircraft_is_on_ground (r : Rec) : Bool :=
  (match r.barometric_altitude with
   | some AltOrGround.onGround => true
   | _ => false) ||
  (match r.geometric_altitude with
   | some a => decide (a < 500)
   | none => false)

/-- `INTERCEPTOR_MIN_SPEED_KTS` (400.0 kts). -/
def INTERCEPTOR_MIN_SPEED_KTS : ℚ := 400

/-- `TARGET_MAX_SPEED_KTS` (350.0 kts). -/
def TARGET_MAX_SPEED_KTS : ℚ := 350

/-- `TARGET_MIN_SPEED_KTS` (80.0 kts). -/
def TARGET_MIN_SPEED_KTS : ℚ := 80

/-- `INTERCEPTOR_TIMEOUT_MINS` (3 minutes). -/
def INTERCEPTOR_TIMEOUT_MINS : ℤ := 3

/-- Aircraft classification (`Class` in `src/interception.rs`). -/
inductive Class : Type
  | Interceptor : Class
  | Target : Class
  | Other : Class
  deriving DecidableEq

/-- Per-aircraft state (`Ac` in `src/interception.rs`). -/
structure Ac : Type where
  hex : String
  coords : List Entry
  max_speed : ℚ
  cur_speed : ℚ
  cur_alt : ℤ
  is_on_ground : Bool
  time_seen_fast : Option ℤ
  fast_count : ℕ
  seen : ℤ
  deriving DecidableEq

/-- `Ac::new`.  The source returns `Result<Ac, Error>` and its only caller
unwraps the result, so the error case is modelled as `none` (a panic at the
caller). -/
def Ac.new (now : ℤ) (r : Rec) : Option Ac :=
  match r.lon, r.lat with
  | some lon, some lat =>
    match r.ground_speed_knots with
    | some spd =>
      match r.geometric_altitude with
      | some _alt =>
        match r.seen_pos with
        | some sp =>
          some { hex := r.hex
                 coords := [(now, (lon, lat))]
                 max_speed := spd
                 cur_speed := spd
                 cur_alt := _alt
                 is_on_ground := aircraft_is_on_ground r
                 time_seen_fast :=
                   if spd > INTERCEPTOR_MIN_SPEED_KTS then some (now - sp) else none
                 fast_count := if spd > INTERCEPTOR_MIN_SPEED_KTS then 1 else 0
                 seen := now - sp }
        | none => none
      | none => none
    | none => none
  | _, _ => none

/-- `Ac::update`.  The source unwraps `seen_pos`, `lon` and `lat`; a missing
one of these is a panic, modelled as `none`.  (The source mutates some fields
before reaching the `unwrap`, but the panic aborts the whole run, so the
partially-mutated state is never observable.) -/
def Ac.update (ac : Ac) (now : ℤ) (r : Rec) : Option Ac :=
  match r.seen_pos, r.lon, r.lat with
  | some sp, some lon, some lat =>
    let s1 : Ac :=
      match r.ground_speed_knots with
      | some spd =>
        { ac with
          cur_speed := spd
          max_speed := max ac.max_speed spd
          time_seen_fast :=
            if spd > INTERCEPTOR_MIN_SPEED_KTS then some now else ac.time_seen_fast
          fast_count :=
            if spd > INTERCEPTOR_MIN_SPEED_KTS then ac.fast_count + 1 else ac.fast_count }
      | none => ac
    let newAlt : ℤ :=
      match r.geometric_altitude with
      | some a => a
      | none =>
        match r.barometric_altitude with
        | some b => alt_number b
        | none => 0
    let cs : List Entry := s1.coords ++ [(now, (lon, lat))]
    some { s1 with
           cur_alt := newAlt
           is_on_ground := aircraft_is_on_ground r
           seen := now - sp
           coords := if cs.length > 40 then cs.drop 1 else cs }
  | _, _, _ => none

/-- `Ac::cur_coords().1`: the most recent position (the source unwraps
`coords.last()`; every live `Ac` has a non-empty history, and a junk default
stands in for the panic). -/
def Ac.curPos (ac : Ac) : Pt := (ac.coords.getLast?.getD (0, (0, 0))).2

/-- The interceptor condition of `Ac::class`. -/
def Ac.interceptorGate (ac : Ac) (now : ℤ) : Bool :=
  match ac.time_seen_fast with
  | some tsf =>
    decide (numMinutes (now - tsf) < INTERCEPTOR_TIMEOUT_MINS) &&
    decide (ac.fast_count > 10) && !ac.is_on_ground
  | none => false

/-- The target condition of `Ac::class`. -/
def Ac.targetGate (ac : Ac) : Bool :=
  decide (TARGET_MIN_SPEED_KTS < ac.cur_speed) &&
  decide (ac.cur_speed < TARGET_MAX_SPEED_KTS) && !ac.is_on_ground

/-- `Ac::class` (named `classify` because `class` is a Lean keyword). -/
def Ac.classify (ac : Ac) (now : ℤ) : Class :=
  if ac.interceptorGate now then Class.Interceptor
  else if ac.targetGate then Class.Target
  else Class.Other

/-- A target entry of the spatial index (`TargetLocation`): the geometry the
aircraft was indexed under together with a clone of its state. -/
abbrev Toi : Type := Pt × Ac

/-- An `Interception` event. -/
structure Interception : Type where
  interceptor : Ac
  target : Ac
  time : ℤ
  lateral_separation_ft : ℝ
  vertical_separation_ft : ℤ

/-- The cross-response `State`. -/
structure State : Type where
  aircraft : List (String × Ac)
  num_ac_indexed : ℕ
  num_ac_processed : ℕ
  interceptions : List Interception

/-- `State::default()`: the initial state. -/
def State.init : State := ⟨[], 0, 0, []⟩

/-- An ADS-B Exchange v2 `Response`. -/
structure Resp : Type where
  now : ℤ
  aircraft : List Rec

/-- `HashMap::get` on the aircraft table. -/
def lookupAc (m : List (String × Ac)) (h : String) : Option Ac :=
  (m.find? (fun p => p.1 == h)).map Prod.snd

/-- In-place mutation through `HashMap::get_mut`: replace the binding of a
key. -/
def replaceAc (m : List (String × Ac)) (h : String) (ac : Ac) : List (String × Ac) :=
  m.map (fun p => if p.1 == h then (p.1, ac) else p)

/-- The insert-or-update part of the per-record body of
`process_adsbx_response`: update an existing `Ac` or insert
`Ac::new(..).unwrap()`. -/
def upsertAc (now : ℤ) (r : Rec) (m : List (String × Ac)) : Option (List (String × Ac)) :=
  match lookupAc m r.hex with
  | some ac => (ac.update now r).map (fun ac' => replaceAc m r.hex ac')
  | none => (Ac.new now r).map (fun ac => m ++ [(r.hex, ac)])

/-- The first loop of `process_adsbx_response`: for each record that has all
of `lat`, `lon`, `ground_speed_knots` and `geometric_altitude`, upsert it
into the state and classify it, collecting the fast movers and the potential
targets; records missing one of those four fields are skipped. -/
def upsertClassify (now : ℤ) :
    List Rec → List (String × Ac) → List Ac → List Toi →
    Option (List (String × Ac) × List Ac × List Toi)
  | [], m, fms, tois => some (m, fms, tois)
  | r :: rs, m, fms, tois =>
    if r.lat.isSome ∧ r.lon.isSome ∧ r.ground_speed_knots.isSome ∧
        r.geometric_altitude.isSome then
      match upsertAc now r m with
      | none => none
      | some m' =>
        match lookupAc m' r.hex with
        | none => none
        | some ac =>
          match ac.classify now with
          | Class.Interceptor => upsertClassify now rs m' (fms ++ [ac]) tois
          | Class.Target => upsertClassify now rs m' fms (tois ++ [(ac.curPos, ac)])
          | Class.Other => upsertClassify now rs m' fms tois
    else upsertClassify now rs m fms tois

/-- The staleness pruning: `retain(|_, ac| (now - ac.seen) < 10 minutes)`. -/
def retainFresh (now : ℤ) (m : List (String × Ac)) : List (String × Ac) :=
  m.filter (fun p => decide (now - p.2.seen < 600))

/-- `MAX_DIST_NM` (0.5 nautical miles). -/
def MAX_DIST_NM : ℚ := 1 / 2

/-- `max_dist_deg_2 = (MAX_DIST_NM / 60)^2`, the squared planar query
radius in degrees. -/
def maxDistDeg2 : ℚ := (MAX_DIST_NM / 60) ^ 2

/-- Squared planar distance used by the r-tree. -/
def dist2 (p q : Pt) : ℚ := (p.1 - q.1) ^ 2 + (p.2 - q.2) ^ 2

/-- The r-tree query `locate_within_distance(fast_mover_coords,
max_dist_deg_2)` over the indexed targets. -/
def candidates (fm : Ac) (tois : List Toi) : List Toi :=
  tois.filter (fun t => decide (dist2 fm.curPos t.1 ≤ maxDistDeg2))

/-- The dedup check: some recorded event has the same
(interceptor, target) hex pair and `time > now - 10 minutes`. -/
def dedupHit (evs : List Interception) (fmHex tHex : String) (now : ℤ) : Bool :=
  evs.any (fun i =>
    i.interceptor.hex == fmHex && i.target.hex == tHex && decide (i.time > now - 600))

/-- Stable insertion of `x` after every element whose key is at most the key
of `x` (the behaviour of Rust's stable `sort_by_key` on ascending keys). -/
def insertByKey {α : Type} (k : α → ℤ) (x : α) : List α → List α
  | [] => [x]
  | y :: ys => if k x ≤ k y then x :: y :: ys else y :: insertByKey k x ys

/-- Stable sort by integer key, modelling Rust's (stable) `sort_by_key`. -/
def sortByKey {α : Type} (k : α → ℤ) (l : List α) : List α :=
  l.foldr (insertByKey k) []

/-- The comparison timestamp of `started_far_apart`:
`max(fast_mover.oldest_coords().0, target.coords[0].0)`.  The source panics
on an empty history; every live `Ac` has a non-empty one, and a junk default
stands in for the panic. -/
def sfaRef (fm t : Ac) : ℤ :=
  max ((fm.coords.headD (0, (0, 0))).1) ((t.coords.headD (0, (0, 0))).1)

/-- The position selected by `started_far_apart` from one history: sort a
copy by `|timestamp - comparison_ts|` (in whole seconds) and take the first
entry. -/
def sfaPick (tref : ℤ) (l : List Entry) : Pt :=
  ((sortByKey (fun c => zabs (c.1 - tref)) l).headD (0, (0, 0))).2

/-- The Haversine mean Earth radius used by the `geo` crate
(`MEAN_EARTH_RADIUS = 6371008.8` meters). -/
noncomputable def MEAN_EARTH_RADIUS : ℝ := 6371008.8

/-- `f64::to_radians` on a degree value. -/
noncomputable def rad (d : ℚ) : ℝ := (d : ℝ) * Real.pi / 180

/-- The `geo` crate's `HaversineDistance` for two `(lon, lat)` points, in
meters (floating point idealised as `ℝ`). -/
noncomputable def haversine_distance (p q : Pt) : ℝ :=
  let θ1 := rad p.2
  let θ2 := rad q.2
  let dθ := rad (q.2 - p.2)
  let dlam := rad (q.1 - p.1)
  let a := Real.sin (dθ / 2) ^ 2 +
    Real.cos θ1 * Real.cos θ2 * Real.sin (dlam / 2) ^ 2
  MEAN_EARTH_RADIUS * (2 * Real.arcsin (Real.sqrt a))

/-- `started_far_apart(fast_mover, target)`, parameterised by the distance
function so that evaluation lemmas can be stated generically; the code's
instance is `hav := haversine_distance`.  True iff the selected positions are
more than `10.0 * 1609.34` meters apart. -/
noncomputable def startedFarApart (hav : Pt → Pt → ℝ) (fm t : Ac) : Prop :=
  hav (sfaPick (sfaRef fm t) fm.coords) (sfaPick (sfaRef fm t) t.coords) >
    10 * (160934 / 100 : ℝ)

/-- The five-way gate of the interception engine (lateral separation, speed
match, altitude match, target recency, history separation). -/
noncomputable def GateProp (hav : Pt → Pt → ℝ) (now : ℤ) (fm : Ac) (t : Toi) : Prop :=
  hav t.2.curPos fm.curPos < 500 ∧
  qabs (t.2.cur_speed - fm.cur_speed) < 150 ∧
  zabs (t.2.cur_alt - fm.cur_alt) < 500 ∧
  now - t.2.seen < 60 ∧
  startedFarApart hav fm t.2

/-- The `Interception` value pushed for a passing candidate:
`lateral_separation_ft = dist * 3.28084`, `vertical_separation_ft` the
absolute altitude difference in feet. -/
noncomputable def mkEv (hav : Pt → Pt → ℝ) (now : ℤ) (fm : Ac) (t : Toi) : Interception :=
  { interceptor := fm
    target := t.2
    time := now
    lateral_separation_ft := hav t.2.curPos fm.curPos * (328084 / 100000 : ℝ)
    vertical_separation_ft := zabs (t.2.cur_alt - fm.cur_alt) }

open Classical in
/-- The per-candidate body of the engine loop: bump `num_ac_processed`, test
the gates, test the dedup window, and append the event. -/
noncomputable def pairStep (hav : Pt → Pt → ℝ) (now : ℤ) (fm : Ac)
    (acc : ℕ × List Interception) (t : Toi) : ℕ × List Interception :=
  if GateProp hav now fm t then
    if dedupHit acc.2 fm.hex t.2.hex now then (acc.1 + 1, acc.2)
    else (acc.1 + 1, acc.2 ++ [mkEv hav now fm t])
  else (acc.1 + 1, acc.2)

/-- The double loop of the engine: for each fast mover, fold the candidate
targets of the spatial query. -/
noncomputable def pairAll (hav : Pt → Pt → ℝ) (now : ℤ) (fms : List Ac)
    (tois : List Toi) (acc : ℕ × List Interception) : ℕ × List Interception :=
  fms.foldl (fun a fm => (candidates fm tois).foldl (pairStep hav now fm) a) acc

/-- The tail of `process_adsbx_response` after the classification loop
succeeded with `(aircraft map, fast_movers, potential_tois)`: staleness
pruning, the empty-fast-movers early return, and only then the
`num_ac_indexed` increment and the pairing loops. -/
noncomputable def processRespCore (hav : Pt → Pt → ℝ) (s : State) (now : ℤ)
    (out : List (String × Ac) × List Ac × List Toi) : State :=
  let m2 := retainFresh now out.1
  if out.2.1 = [] then { s with aircraft := m2 }
  else
    let res := pairAll hav now out.2.1 out.2.2 (s.num_ac_processed, s.interceptions)
    { aircraft := m2
      num_ac_indexed := s.num_ac_indexed + out.2.2.length
      num_ac_processed := res.1
      interceptions := res.2 }

/-- `process_adsbx_response`, parameterised by the distance function (the
code's instance is `hav := haversine_distance`).  Returns `none` when the
source panics. -/
noncomputable def processResp (hav : Pt → Pt → ℝ) (s : State) (r : Resp) : Option State :=
  (upsertClassify r.now r.aircraft s.aircraft [] []).map (processRespCore hav s r.now)

/-- Processing a whole list of responses in order, starting from
`State::default()` — the serial per-tick driver (`tracon-interception`
example binary: `for_each_adsbx_json` invokes `process_adsbx_response` once
per response, in input order, against a single mutable state). -/
noncomputable def runAll (hav : Pt → Pt → ℝ) (resps : List Resp) : Option State :=
  resps.foldl (fun os r => os.bind (fun s => processResp hav s r)) (some State.init)

/-! ### Specification-side definitions

These definitions translate the words of the specification (not the source)
and are used on the specification side of refinement statements. -/

/-- The interceptor predicate as the spec words it: `time_seen_fast` is set,
`now - time_seen_fast < 3` minutes, `fast_count > 10`, and not on ground. -/
def interceptorPred (ac : Ac) (now : ℤ) : Prop :=
  ∃ tsf, ac.time_seen_fast = some tsf ∧ now - tsf < 180 ∧
    10 < ac.fast_count ∧ ac.is_on_ground = false

/-- The target predicate as the spec words it:
`80 < cur_speed < 350` and not on ground. -/
def targetPred (ac : Ac) : Prop :=
  TARGET_MIN_SPEED_KTS < ac.cur_speed ∧ ac.cur_speed < TARGET_MAX_SPEED_KTS ∧
    ac.is_on_ground = false

/-- First element of a list attaining the minimal key (the element a stable
ascending sort brings to the front). -/
def firstMin {α : Type} (k : α → ℤ) : List α → Option α
  | [] => none
  | x :: xs =>
    match firstMin k xs with
    | none => some x
    | some y => if k x ≤ k y then some x else some y

/-- Two interception events concern the same (interceptor, target) hex
pair. -/
def samePair (e1 e2 : Interception) : Prop :=
  e1.interceptor.hex = e2.interceptor.hex ∧ e1.target.hex = e2.target.hex

/-- Dedup separation, oriented by emission order: if a later event concerns
the same pair, it is at least ten minutes younger. -/
def sep600 (e1 e2 : Interception) : Prop := samePair e1 e2 → e1.time + 600 ≤ e2.time

/-- The aircraft table maps each hex key to an `Ac` carrying that hex. -/
def MapKeyed (m : List (String × Ac)) : Prop := ∀ p ∈ m, p.2.hex = p.1

/-- No hex appears on two aircraft records of the response. -/
def NoDupHexes (r : Resp) : Prop := (r.aircraft.map Rec.hex).Nodup

/-- The altitude that the spec's fallback chain (geometric, then barometric
with `OnGround` as 0, then 0) assigns for a record. -/
def altFallback (r : Rec) : ℤ :=
  match r.geometric_altitude with
  | some a => a
  | none =>
    match r.barometric_altitude with
    | some b => alt_number b
    | none => 0

/-! ### Concrete inputs used by counterexamples and witnesses -/

/-- A record with every field needed by the engine populated. -/
def mkR (hex : String) (gs lon : ℚ) : Rec :=
  { hex := hex, lat := some 0, lon := some lon, ground_speed_knots := some gs,
    geometric_altitude := some 10000, barometric_altitude := none,
    seen_pos := some 0 }

/-- C1 failing input: all four guarded fields present but `seen_pos`
missing. -/
def c1resp : Resp :=
  ⟨0, [{ hex := "a", lat := some 0, lon := some 0, ground_speed_knots := some 100,
         geometric_altitude := some 1000, barometric_altitude := none,
         seen_pos := none }]⟩

/-- C2 counterexample aircraft: `cur_alt` is 5 before the update. -/
def c2ac : Ac :=
  { hex := "a", coords := [(0, (0, 0))], max_speed := 100, cur_speed := 100,
    cur_alt := 5, is_on_ground := false, time_seen_fast := none,
    fast_count := 0, seen := 0 }

/-- C2 counterexample record: both altitude fields absent. -/
def c2rec : Rec :=
  { hex := "a", lat := some 0, lon := some 0, ground_speed_knots := some 100,
    geometric_altitude := none, barometric_altitude := none, seen_pos := some 7 }

/-- C4 counterexample response: a single tick whose 41 records all carry hex
`a`.  Record 1 is slow (a Target), record 2 moves the aircraft far away,
records 3-30 are below target speed, and records 31-41 are above interceptor
speed, the 41st crossing `fast_count > 10` and overflowing the 40-entry
history so that the interceptor clone's oldest position differs from the
target clone's. -/
def c4resp : Resp :=
  ⟨0, [mkR "a" 300 0, mkR "a" 60 180] ++ List.replicate 28 (mkR "a" 60 0) ++
        List.replicate 11 (mkR "a" 401 0)⟩

/-- The Target clone of hex `a` after record 1 of `c4resp`. -/
def c4T : Ac :=
  { hex := "a", coords := [(0, (0, 0))], max_speed := 300, cur_speed := 300,
    cur_alt := 10000, is_on_ground := false, time_seen_fast := none,
    fast_count := 0, seen := 0 }

/-- The Interceptor clone of hex `a` after record 41 of `c4resp`. -/
def c4I : Ac :=
  { hex := "a", coords := (0, ((180 : ℚ), (0 : ℚ))) :: List.replicate 39 (0, (0, 0)),
    max_speed := 401, cur_speed := 401, cur_alt := 10000, is_on_ground := false,
    time_seen_fast := some 0, fast_count := 11, seen := 0 }

/-- The spatial-index entry for the C4 target clone. -/
def c4toi : Toi := (((0 : ℚ), (0 : ℚ)), c4T)

/-- C6 counterexample pre-state aircraft `h1`: 9 fast ticks so far, so the
first processing lifts `fast_count` to 10 (not an interceptor) and the
second to 11 (an interceptor). -/
def c6ac1 : Ac :=
  { hex := "h1", coords := [(0, (180, 0))], max_speed := 401, cur_speed := 401,
    cur_alt := 10000, is_on_ground := false, time_seen_fast := some 0,
    fast_count := 9, seen := 0 }

/-- C6 counterexample pre-state aircraft `h2`: a steady target. -/
def c6ac2 : Ac :=
  { hex := "h2", coords := [(0, (0, 0))], max_speed := 300, cur_speed := 300,
    cur_alt := 10000, is_on_ground := false, time_seen_fast := none,
    fast_count := 0, seen := 0 }

/-- C6 counterexample pre-state. -/
def c6state : State := ⟨[("h1", c6ac1), ("h2", c6ac2)], 0, 0, []⟩

/-- C6 counterexample response, processed twice. -/
def c6resp : Resp := ⟨0, [mkR "h1" 401 0, mkR "h2" 300 0]⟩

/-- `h1` after the first processing of `c6resp`. -/
def c6ac1' : Ac :=
  { hex := "h1", coords := [(0, (180, 0)), (0, (0, 0))], max_speed := 401,
    cur_speed := 401, cur_alt := 10000, is_on_ground := false,
    time_seen_fast := some 0, fast_count := 10, seen := 0 }

/-- `h2` after the first processing of `c6resp`. -/
def c6ac2' : Ac :=
  { hex := "h2", coords := [(0, (0, 0)), (0, (0, 0))], max_speed := 300,
    cur_speed := 300, cur_alt := 10000, is_on_ground := false,
    time_seen_fast := none, fast_count := 0, seen := 0 }

/-- The state after the first processing of `c6resp` (no fast movers yet, so
the engine returned early and no event was emitted). -/
def c6state1 : State := ⟨[("h1", c6ac1'), ("h2", c6ac2')], 0, 0, []⟩

/-- `h1` after the second processing of `c6resp`: now an interceptor. -/
def c6ac1'' : Ac :=
  { hex := "h1", coords := [(0, (180, 0)), (0, (0, 0)), (0, (0, 0))],
    max_speed := 401, cur_speed := 401, cur_alt := 10000, is_on_ground := false,
    time_seen_fast := some 0, fast_count := 11, seen := 0 }

/-- `h2` after the second processing of `c6resp`. -/
def c6ac2'' : Ac :=
  { hex := "h2", coords := [(0, (0, 0)), (0, (0, 0)), (0, (0, 0))],
    max_speed := 300, cur_speed := 300, cur_alt := 10000, is_on_ground := false,
    time_seen_fast := none, fast_count := 0, seen := 0 }

/-- The spatial-index entry for `h2` in the second processing of `c6resp`. -/
def c6toi : Toi := (((0 : ℚ), (0 : ℚ)), c6ac2'')

/-- C9 counterexample response: one target-classified aircraft and no
interceptors, so the engine returns early. -/
def c9resp : Resp := ⟨0, [mkR "b" 300 0]⟩

/-- The state of hex `b` created by `c9resp`. -/
def c9ac : Ac :=
  { hex := "b", coords := [(0, (0, 0))], max_speed := 300, cur_speed := 300,
    cur_alt := 10000, is_on_ground := false, time_seen_fast := none,
    fast_count := 0, seen := 0 }

/-- C3 witness, first response (tick at `now = 0`): 11 fast records of `h1`
(driving `fast_count` past 10) followed by one record of target `h2`. -/
def c3r1 : Resp :=
  ⟨0, mkR "h1" 401 180 :: List.replicate 10 (mkR "h1" 401 0) ++ [mkR "h2" 300 0]⟩

/-- C3 witness, second response (tick at `now = 600`, exactly ten minutes
later, so the dedup window has just expired). -/
def c3r2 : Resp := ⟨600, [mkR "h1" 401 0, mkR "h2" 300 0]⟩

/-- The C3 witness run: the same pair intercepts at `now = 0` and again at
`now = 600`. -/
def c3resps : List Resp := [c3r1, c3r2]

/-- `h1` as classified Interceptor at the first C3 tick. -/
def c3I1 : Ac :=
  { hex := "h1", coords := (0, ((180 : ℚ), (0 : ℚ))) :: List.replicate 10 (0, (0, 0)),
    max_speed := 401, cur_speed := 401, cur_alt := 10000, is_on_ground := false,
    time_seen_fast := some 0, fast_count := 11, seen := 0 }

/-- `h2` as classified Target at the first C3 tick. -/
def c3T1 : Ac :=
  { hex := "h2", coords := [(0, (0, 0))], max_speed := 300, cur_speed := 300,
    cur_alt := 10000, is_on_ground := false, time_seen_fast := none,
    fast_count := 0, seen := 0 }

/-- The spatial-index entry for `h2` at the first C3 tick. -/
def c3toi1 : Toi := (((0 : ℚ), (0 : ℚ)), c3T1)

/-- `h1` as classified Interceptor at the second C3 tick. -/
def c3I2 : Ac :=
  { hex := "h1",
    coords := (0, ((180 : ℚ), (0 : ℚ))) :: List.replicate 10 (0, (0, 0)) ++ [(600, (0, 0))],
    max_speed := 401, cur_speed := 401, cur_alt := 10000, is_on_ground := false,
    time_seen_fast := some 600, fast_count := 12, seen := 600 }

/-- `h2` as classified Target at the second C3 tick. -/
def c3T2 : Ac :=
  { hex := "h2", coords := [(0, (0, 0)), (600, (0, 0))], max_speed := 300,
    cur_speed := 300, cur_alt := 10000, is_on_ground := false,
    time_seen_fast := none, fast_count := 0, seen := 600 }

/-- The spatial-index entry for `h2` at the second C3 tick. -/
def c3toi2 : Toi := (((0 : ℚ), (0 : ℚ)), c3T2)

/-- The event emitted at the first C3 tick. -/
noncomputable def c3ev1 : Interception := mkEv haversine_distance 0 c3I1 c3toi1

/-- The event emitted at the second C3 tick. -/
noncomputable def c3ev2 : Interception := mkEv haversine_distance 600 c3I2 c3toi2

/-- The state after the first C3 tick. -/
noncomputable def c3s1 : State := ⟨[("h1", c3I1), ("h2", c3T1)], 1, 1, [c3ev1]⟩

/-- The state after the second C3 tick. -/
noncomputable def c3s2 : State := ⟨[("h1", c3I2), ("h2", c3T2)], 2, 2, [c3ev1, c3ev2]⟩

/-- C7 witness fast-mover history. -/
def c7fm : Ac :=
  { hex := "f", coords := [(0, (1, 1)), (90, (2, 2))], max_speed := 450,
    cur_speed := 450, cur_alt := 20000, is_on_ground := false,
    time_seen_fast := some 0, fast_count := 12, seen := 90 }

/-- C7 witness target history. -/
def c7t : Ac :=
  { hex := "g", coords := [(30, (3, 3)), (95, (4, 4))], max_speed := 200,
    cur_speed := 200, cur_alt := 20100, is_on_ground := false,
    time_seen_fast := none, fast_count := 0, seen := 95 }

/-- C10 witness aircraft. -/
def c10ac : Ac :=
  { hex := "w", coords := [(0, (5, 5))], max_speed := 410, cur_speed := 405,
    cur_alt := 9000, is_on_ground := false, time_seen_fast := some 0,
    fast_count := 4, seen := 0 }

/-- C10 witness record: `ground_speed_knots` absent, other update fields
present. -/
def c10rec : Rec :=
  { hex := "w", lat := some 6, lon := some 6, ground_speed_knots := none,
    geometric_altitude := some 8000, barometric_altitude := none,
    seen_pos := some 2 }

/-- `c2ac` after `c2ac.update 0 c2rec`: with both altitudes absent the
altitude becomes 0 (and `seen = 0 - 7`). -/
def c2ac' : Ac :=
  { hex := "a", coords := [(0, (0, 0)), (0, (0, 0))], max_speed := 100,
    cur_speed := 100, cur_alt := 0, is_on_ground := false,
    time_seen_fast := none, fast_count := 0, seen := -7 }

/-- The state after processing `c9resp` from the initial state. -/
def c9state' : State := ⟨[("b", c9ac)], 0, 0, []⟩

/-- The classification output of `c9resp` on the initial state. -/
def c9out : List (String × Ac) × List Ac × List Toi :=
  ([("b", c9ac)], [], [(((0 : ℚ), (0 : ℚ)), c9ac)])

/-- The event emitted by the second processing of `c6resp`. -/
noncomputable def c6ev : Interception := mkEv haversine_distance 0 c6ac1'' c6toi

/-- The state after the second processing of `c6resp`. -/
noncomputable def c6state2 : State :=
  ⟨[("h1", c6ac1''), ("h2", c6ac2'')], 1, 1, [c6ev]⟩

/-- `c10ac` after `c10ac.update 5 c10rec`: the speed-derived fields are
untouched because `ground_speed_knots` is absent. -/
def c10ac' : Ac :=
  { hex := "w", coords := [(0, (5, 5)), (5, (6, 6))], max_speed := 410,
    cur_speed := 405, cur_alt := 8000, is_on_ground := false,
    time_seen_fast := some 0, fast_count := 4, seen := 3 }

/-! ### Helper lemmas -/

/-- `num_minutes(d) < 3` for a truncating division is exactly `d < 180`
seconds, for durations of either sign. -/
theorem numMinutes_lt_three_iff (d : ℤ) : numMinutes d < 3 ↔ d < 180 := by
  unfold numMinutes
  cases d with
  | ofNat n =>
    show (↑(n / 60) : ℤ) < 3 ↔ (↑n : ℤ) < 180
    constructor
    · intro h
      have hn : n / 60 < 3 := by exact_mod_cast h
      have := Nat.lt_of_div_lt_div (by omega : n / 60 < 180 / 60)
      exact_mod_cast this
    · intro h
      have hn : n < 180 := by exact_mod_cast h
      have : n / 60 < 3 := Nat.div_lt_of_lt_mul (by omega)
      exact_mod_cast this
  | negSucc n =>
    show -(↑((n + 1) / 60) : ℤ) < 3 ↔ _
    constructor
    · intro _
      exact lt_of_lt_of_le (Int.negSucc_lt_zero n) (by omega)
    · intro _
      have : (0 : ℤ) ≤ (↑((n + 1) / 60) : ℤ) := Int.ofNat_nonneg _
      omega

theorem qabs_eq_abs (q : ℚ) : qabs q = |q| := by
  unfold qabs
  rcases lt_or_le q 0 with h | h
  · rw [if_pos h, abs_of_neg h]
  · rw [if_neg (not_lt.mpr h), abs_of_nonneg h]

theorem zabs_eq_abs (d : ℤ) : zabs d = |d| := by
  unfold zabs
  rcases lt_or_le d 0 with h | h
  · rw [if_pos h, abs_of_neg h]
  · rw [if_neg (not_lt.mpr h), abs_of_nonneg h]

/-- The Haversine distance from a point to itself is 0. -/
theorem haversine_self (p : Pt) : haversine_distance p p = 0 := by
  unfold haversine_distance rad
  simp

/-- The Haversine distance between `(180, 0)` and `(0, 0)` (degrees) is half
the Earth's circumference. -/
theorem haversine_far :
    haversine_distance ((180 : ℚ), (0 : ℚ)) ((0 : ℚ), (0 : ℚ)) =
      MEAN_EARTH_RADIUS * Real.pi := by
  unfold haversine_distance rad
  have h1 : ((((0 : ℚ) - 180 : ℚ) : ℝ)) * Real.pi / 180 = -Real.pi := by
    push_cast
    ring
  have h0 : ((((0 : ℚ) - 0 : ℚ) : ℝ)) * Real.pi / 180 = 0 := by
    push_cast
    ring
  have hz : (((0 : ℚ) : ℝ)) * Real.pi / 180 = 0 := by
    push_cast
    ring
  simp only [h1, h0, hz]
  rw [show -Real.pi / 2 = -(Real.pi / 2) by ring]
  rw [Real.sin_neg, Real.sin_pi_div_two]
  norm_num [Real.arcsin_one]
  exact Or.inl (by ring)

/-- Half the Earth's circumference is more than ten miles. -/
theorem far_gt_threshold :
    MEAN_EARTH_RADIUS * Real.pi > 10 * (160934 / 100 : ℝ) := by
  unfold MEAN_EARTH_RADIUS
  nlinarith [Real.pi_gt_three]

/-- Inserting an element whose key is at most every key of the list puts it
in front. -/
theorem insertByKey_of_le {α : Type} (k : α → ℤ) (x : α) (l : List α)
    (h : ∀ y ∈ l, k x ≤ k y) : insertByKey k x l = x :: l := by
  cases l with
  | nil => rfl
  | cons y ys =>
    unfold insertByKey
    rw [if_pos (h y (List.mem_cons_self y ys))]

/-- A list whose keys are already (weakly) ascending is left unchanged by
the stable sort. -/
theorem sortByKey_of_pairwise {α : Type} (k : α → ℤ) (l : List α)
    (h : l.Pairwise (fun a b => k a ≤ k b)) : sortByKey k l = l := by
  induction l with
  | nil => rfl
  | cons x xs ih =>
    rw [List.pairwise_cons] at h
    show insertByKey k x (sortByKey k xs) = x :: xs
    rw [ih h.2, insertByKey_of_le k x xs h.1]

/-- The head of the stable sort is the first element attaining the minimal
key. -/
theorem sortByKey_head_eq_firstMin {α : Type} (k : α → ℤ) (l : List α) :
    (sortByKey k l).head? = firstMin k l := by
  induction l with
  | nil => rfl
  | cons x xs ih =>
    show (insertByKey k x (sortByKey k xs)).head? = _
    unfold firstMin
    rw [← ih]
    cases hs : sortByKey k xs with
    | nil => rfl
    | cons y ys =>
      unfold insertByKey
      by_cases hk : k x ≤ k y
      · rw [if_pos hk]
        simp [hk]
      · rw [if_neg hk]
        simp [hk]

/-- A non-empty list always has a first key-minimiser. -/
theorem firstMin_ne_none {α : Type} (k : α → ℤ) (a : α) (as : List α) :
    firstMin k (a :: as) ≠ none := by
  show (match firstMin k as with
        | none => some a
        | some y => if k a ≤ k y then some a else some y) ≠ none
  cases firstMin k as with
  | none => simp
  | some y =>
    by_cases hk : k a ≤ k y
    · simp [hk]
    · simp [hk]

/-- `firstMin` returns a member of the list attaining the minimal key. -/
theorem firstMin_spec {α : Type} (k : α → ℤ) (l : List α) (x : α)
    (h : firstMin k l = some x) : x ∈ l ∧ ∀ y ∈ l, k x ≤ k y := by
  induction l generalizing x with
  | nil => exact absurd h (by simp [firstMin])
  | cons a as ih =>
    cases hf : firstMin k as with
    | none =>
      cases as with
      | nil =>
        have h' : some a = some x := h
        injection h' with h'
        subst h'
        exact ⟨List.mem_cons_self _ _, by simp⟩
      | cons b bs => exact absurd hf (firstMin_ne_none k b bs)
    | some y =>
      have h' : (match firstMin k as with
          | none => some a
          | some y => if k a ≤ k y then some a else some y) = some x := h
      rw [hf] at h'
      have h'' : (if k a ≤ k y then some a else some y) = some x := h'
      obtain ⟨hmem, hmin⟩ := ih y hf
      by_cases hk : k a ≤ k y
      · rw [if_pos hk] at h''
        injection h'' with h''
        subst h''
        refine ⟨List.mem_cons_self _ _, ?_⟩
        intro z hz
        rcases List.mem_cons.mp hz with hz | hz
        · subst hz; exact le_refl _
        · exact le_trans hk (hmin z hz)
      · rw [if_neg hk] at h''
        injection h'' with h''
        subst h''
        refine ⟨List.mem_cons_of_mem _ hmem, ?_⟩
        intro z hz
        rcases List.mem_cons.mp hz with hz | hz
        · subst hz; exact le_of_not_le hk
        · exact hmin z hz

/-- Fold preservation of a predicate. -/
theorem foldl_preserve {β γ : Type} (f : γ → β → γ) (P : γ → Prop) :
    ∀ (l : List β) (init : γ),
      (∀ a b, b ∈ l → P a → P (f a b)) → P init → P (l.foldl f init)
  | [], _, _, h0 => h0
  | b :: bs, init, hstep, h0 =>
    foldl_preserve f P bs (f init b)
      (fun a x hx ha => hstep a x (List.mem_cons_of_mem _ hx) ha)
      (hstep init b (List.mem_cons_self _ _) h0)

/-- Consequence of a missed dedup window: every recorded event for the same
pair is at least ten minutes old. -/
theorem dedupHit_false {evs : List Interception} {fmHex tHex : String} {now : ℤ}
    (h : dedupHit evs fmHex tHex now = false) :
    ∀ e ∈ evs, e.interceptor.hex = fmHex → e.target.hex = tHex →
      e.time ≤ now - 600 := by
  intro e he h1 h2
  unfold dedupHit at h
  rw [List.any_eq_false] at h
  have := h e he
  simp only [h1, h2, beq_self_eq_true, Bool.true_and, Bool.and_eq_true,
    decide_eq_true_eq] at this
  omega

/-- The dedup check over a prefix of the event list is false whenever it is
false over the whole list. -/
theorem dedupHit_append_false {evs1 evs2 : List Interception}
    {fmHex tHex : String} {now : ℤ}
    (h : dedupHit (evs1 ++ evs2) fmHex tHex now = false) :
    dedupHit evs1 fmHex tHex now = false := by
  unfold dedupHit at h ⊢
  rw [List.any_append, Bool.or_eq_false_iff] at h
  exact h.1

/-- Case analysis of the per-candidate engine body: either the event list is
unchanged, or the gates passed, the dedup window missed, and exactly the
event of this pairing was appended. -/
theorem pairStep_cases (hav : Pt → Pt → ℝ) (now : ℤ) (fm : Ac)
    (acc : ℕ × List Interception) (t : Toi) :
    (pairStep hav now fm acc t).2 = acc.2 ∨
    (GateProp hav now fm t ∧ dedupHit acc.2 fm.hex t.2.hex now = false ∧
      (pairStep hav now fm acc t).2 = acc.2 ++ [mkEv hav now fm t]) := by
  unfold pairStep
  by_cases hg : GateProp hav now fm t
  · rw [if_pos hg]
    cases hd : dedupHit acc.2 fm.hex t.2.hex now with
    | true => exact Or.inl (by simp)
    | false => exact Or.inr ⟨hg, rfl, by simp⟩
  · rw [if_neg hg]
    exact Or.inl rfl

/-- Evaluation of the engine loop for one fast mover and one indexed target
that pass the prefilter, the gates and the dedup window. -/
theorem pairAll_single (hav : Pt → Pt → ℝ) (now : ℤ) (fm : Ac) (toi : Toi)
    (np : ℕ) (evs : List Interception)
    (hnear : dist2 fm.curPos toi.1 ≤ maxDistDeg2)
    (hg : GateProp hav now fm toi)
    (hd : dedupHit evs fm.hex toi.2.hex now = false) :
    pairAll hav now [fm] [toi] (np, evs) = (np + 1, evs ++ [mkEv hav now fm toi]) := by
  unfold pairAll candidates
  simp only [List.foldl_cons, List.foldl_nil, List.filter,
    decide_eq_true hnear]
  unfold pairStep
  rw [if_pos hg, hd]
  simp

/-- Generic preservation through the engine's double loop: any property of
the event list that survives an append of a gate-passing, dedup-missing
event survives `pairAll`. -/
theorem pairAll_preserve (hav : Pt → Pt → ℝ) (now : ℤ) (fms : List Ac)
    (tois : List Toi) (acc : ℕ × List Interception)
    (P : List Interception → Prop)
    (hstep : ∀ evs fm t, fm ∈ fms → t ∈ tois → GateProp hav now fm t →
      dedupHit evs fm.hex t.2.hex now = false → P evs →
      P (evs ++ [mkEv hav now fm t]))
    (h0 : P acc.2) : P (pairAll hav now fms tois acc).2 := by
  unfold pairAll
  refine foldl_preserve _ (fun a => P a.2) fms acc ?_ h0
  intro a fm hfm ha
  refine foldl_preserve _ (fun a => P a.2) (candidates fm tois) a ?_ ha
  intro b t ht hb
  rcases pairStep_cases hav now fm b t with hk | ⟨hg, hd, hp⟩
  · rw [hk]; exact hb
  · rw [hp]
    exact hstep b.2 fm t hfm (List.mem_of_mem_filter ht) hg hd hb

/-- The engine's double loop only appends events, and each appended event is
a gate-passing, dedup-missing pairing of a fast mover with an indexed
target. -/
theorem pairAll_append_spec (hav : Pt → Pt → ℝ) (now : ℤ) (fms : List Ac)
    (tois : List Toi) (acc : ℕ × List Interception) :
    ∃ Δ, (pairAll hav now fms tois acc).2 = acc.2 ++ Δ ∧
      ∀ e ∈ Δ, ∃ fm t, fm ∈ fms ∧ t ∈ tois ∧ e = mkEv hav now fm t ∧
        GateProp hav now fm t ∧ dedupHit acc.2 fm.hex t.2.hex now = false := by
  refine pairAll_preserve hav now fms tois acc
    (fun evs => ∃ Δ, evs = acc.2 ++ Δ ∧
      ∀ e ∈ Δ, ∃ fm t, fm ∈ fms ∧ t ∈ tois ∧ e = mkEv hav now fm t ∧
        GateProp hav now fm t ∧ dedupHit acc.2 fm.hex t.2.hex now = false)
    ?_ ⟨[], by simp⟩
  rintro evs fm t hfm ht hg hd ⟨Δ, rfl, hΔ⟩
  refine ⟨Δ ++ [mkEv hav now fm t], by simp, ?_⟩
  intro e he
  rcases List.mem_append.mp he with he | he
  · exact hΔ e he
  · rcases List.mem_singleton.mp he with rfl
    exact ⟨fm, t, hfm, ht, rfl, hg, dedupHit_append_false hd⟩

/-- The engine's double loop preserves pairwise dedup separation. -/
theorem pairAll_pairwise (hav : Pt → Pt → ℝ) (now : ℤ) (fms : List Ac)
    (tois : List Toi) (acc : ℕ × List Interception)
    (h0 : acc.2.Pairwise sep600) :
    (pairAll hav now fms tois acc).2.Pairwise sep600 := by
  refine pairAll_preserve hav now fms tois acc (fun evs => evs.Pairwise sep600)
    ?_ h0
  intro evs fm t _ _ _ hd hp
  rw [List.pairwise_append]
  refine ⟨hp, List.pairwise_singleton _ _, ?_⟩
  intro a ha b hb hpair
  rcases List.mem_singleton.mp hb with rfl
  have h1 : a.interceptor.hex = fm.hex := hpair.1
  have h2 : a.target.hex = t.2.hex := hpair.2
  have := dedupHit_false hd a ha h1 h2
  have ht : (mkEv hav now fm t).time = now := rfl
  omega

/-- `processResp` only appends events; each appended event is stamped with
the response time, respects the emission bounds, and is at least ten
minutes younger than any same-pair event already recorded. -/
theorem processResp_append (hav : Pt → Pt → ℝ) (s : State) (r : Resp) (s' : State)
    (h : processResp hav s r = some s') :
    ∃ Δ, s'.interceptions = s.interceptions ++ Δ ∧
      ∀ e ∈ Δ, e.time = r.now ∧
        (∀ old ∈ s.interceptions, old.interceptor.hex = e.interceptor.hex →
          old.target.hex = e.target.hex → old.time ≤ r.now - 600) ∧
        e.lateral_separation_ft < 500 * (328084 / 100000 : ℝ) ∧
        e.vertical_separation_ft < 500 := by
  unfold processResp at h
  rcases Option.map_eq_some'.mp h with ⟨out, _, rfl⟩
  unfold processRespCore
  by_cases hfm : out.2.1 = []
  · rw [if_pos hfm]
    exact ⟨[], by simp, by simp⟩
  · rw [if_neg hfm]
    rcases pairAll_append_spec hav r.now out.2.1 out.2.2
      (s.num_ac_processed, s.interceptions) with ⟨Δ, hΔeq, hΔ⟩
    refine ⟨Δ, hΔeq, ?_⟩
    intro e he
    rcases hΔ e he with ⟨fm, t, _, _, rfl, hg, hd⟩
    refine ⟨rfl, ?_, ?_, ?_⟩
    · intro old hold h1 h2
      exact dedupHit_false hd old hold h1 h2
    · exact mul_lt_mul_of_pos_right hg.1 (by norm_num)
    · exact hg.2.2.1

/-- Invariant propagation through a whole run. -/
theorem runAll_inv (hav : Pt → Pt → ℝ) (P : State → Prop) (resps : List Resp)
    (hinit : P State.init)
    (hstep : ∀ s r s', r ∈ resps → P s → processResp hav s r = some s' → P s') :
    ∀ s, runAll hav resps = some s → P s := by
  unfold runAll
  suffices h : ∀ (rs : List Resp) (os : Option State),
      (∀ s0, os = some s0 → P s0) →
      (∀ s r s', r ∈ rs → P s → processResp hav s r = some s' → P s') →
      ∀ s, rs.foldl (fun os r => os.bind (fun s => processResp hav s r)) os = some s → P s by
    exact h resps (some State.init) (fun s0 hs0 => by injection hs0 with hs0; rw [← hs0]; exact hinit)
      hstep
  intro rs
  induction rs with
  | nil =>
    intro os hos _ s hs
    exact hos s hs
  | cons r rs ih =>
    intro os hos hstep' s hs
    refine ih (os.bind (fun s0 => processResp hav s0 r)) ?_
      (fun s0 r0 s0' hr0 => hstep' s0 r0 s0' (List.mem_cons_of_mem _ hr0)) s hs
    intro s0 hs0
    rcases Option.bind_eq_some.mp hs0 with ⟨sa, hsa, hpr⟩
    exact hstep' sa r s0 (List.mem_cons_self _ _) (hos sa hsa) hpr

/-- From a pairwise property of a list, any two members are equal or related
one way or the other. -/
theorem pairwise_cases {α : Type} {R : α → α → Prop} :
    ∀ {l : List α}, l.Pairwise R → ∀ {a b : α}, a ∈ l → b ∈ l →
      a = b ∨ R a b ∨ R b a := by
  intro l hl
  induction hl with
  | nil => intro a b ha _; exact absurd ha (List.not_mem_nil a)
  | cons hx _ ih =>
    intro a b ha hb
    rcases List.mem_cons.mp ha with ha1 | ha1
    · rcases List.mem_cons.mp hb with hb1 | hb1
      · exact Or.inl (ha1.trans hb1.symm)
      · exact Or.inr (Or.inl (by rw [ha1]; exact hx b hb1))
    · rcases List.mem_cons.mp hb with hb1 | hb1
      · exact Or.inr (Or.inr (by rw [hb1]; exact hx a ha1))
      · exact ih ha1 hb1

/-! ### Evaluation lemmas for the concrete runs -/

/-- The C4 pairing passes every gate. -/
theorem c4_gate : GateProp haversine_distance 0 c4I c4toi := by
  refine ⟨?_, ?_, ?_, ?_, ?_⟩
  · rw [show c4toi.2.curPos = ((0 : ℚ), (0 : ℚ)) from by decide,
      show c4I.curPos = ((0 : ℚ), (0 : ℚ)) from by decide, haversine_self]
    norm_num
  · show qabs ((300 : ℚ) - 401) < 150
    rw [qabs, if_pos (by norm_num : (300 : ℚ) - 401 < 0)]
    norm_num
  · decide
  · decide
  · unfold startedFarApart
    rw [show sfaPick (sfaRef c4I c4toi.2) c4I.coords = ((180 : ℚ), (0 : ℚ)) from by decide,
      show sfaPick (sfaRef c4I c4toi.2) c4toi.2.coords = ((0 : ℚ), (0 : ℚ)) from by decide,
      haversine_far]
    exact far_gt_threshold

/-- The C4 target passes the spatial prefilter. -/
theorem c4_near : dist2 c4I.curPos c4toi.1 ≤ maxDistDeg2 := by
  rw [show c4I.curPos = ((0 : ℚ), (0 : ℚ)) from by decide]
  norm_num [dist2, maxDistDeg2, MAX_DIST_NM, c4toi]

set_option maxRecDepth 8000 in
/-- Classification of the C4 response: one target clone (after record 1) and
one interceptor clone (after record 41), both of hex `a`. -/
theorem c4_classify :
    upsertClassify c4resp.now c4resp.aircraft State.init.aircraft [] [] =
      some ([("a", c4I)], [c4I], [c4toi]) := by
  decide

/-- First processing of the C6 response: `h1` only reaches `fast_count = 10`,
no fast movers, early return, no events. -/
theorem c6_tick1 : processResp haversine_distance c6state c6resp = some c6state1 := by
  rfl

/-- The C6 pairing of the second processing passes every gate. -/
theorem c6_gate : GateProp haversine_distance 0 c6ac1'' c6toi := by
  refine ⟨?_, ?_, ?_, ?_, ?_⟩
  · rw [show c6toi.2.curPos = ((0 : ℚ), (0 : ℚ)) from by decide,
      show c6ac1''.curPos = ((0 : ℚ), (0 : ℚ)) from by decide, haversine_self]
    norm_num
  · show qabs ((300 : ℚ) - 401) < 150
    rw [qabs, if_pos (by norm_num : (300 : ℚ) - 401 < 0)]
    norm_num
  · decide
  · decide
  · unfold startedFarApart
    rw [show sfaPick (sfaRef c6ac1'' c6toi.2) c6ac1''.coords = ((180 : ℚ), (0 : ℚ)) from by decide,
      show sfaPick (sfaRef c6ac1'' c6toi.2) c6toi.2.coords = ((0 : ℚ), (0 : ℚ)) from by decide,
      haversine_far]
    exact far_gt_threshold

/-- The C6 target passes the spatial prefilter. -/
theorem c6_near : dist2 c6ac1''.curPos c6toi.1 ≤ maxDistDeg2 := by
  rw [show c6ac1''.curPos = ((0 : ℚ), (0 : ℚ)) from by decide]
  norm_num [dist2, maxDistDeg2, MAX_DIST_NM, c6toi]

/-- Second processing of the C6 response: `h1` crosses `fast_count > 10`,
becomes an interceptor, and an event is emitted. -/
theorem c6_tick2 : processResp haversine_distance c6state1 c6resp = some c6state2 := by
  unfold processResp
  rw [show upsertClassify c6resp.now c6resp.aircraft c6state1.aircraft [] [] =
      some ([("h1", c6ac1''), ("h2", c6ac2'')], [c6ac1''], [c6toi]) from by decide,
    Option.map_some']
  have hpair : pairAll haversine_distance c6resp.now [c6ac1''] [c6toi]
      (c6state1.num_ac_processed, c6state1.interceptions) =
      (0 + 1, [] ++ [mkEv haversine_distance 0 c6ac1'' c6toi]) :=
    pairAll_single haversine_distance 0 c6ac1'' c6toi 0 [] c6_near c6_gate rfl
  unfold processRespCore
  rw [if_neg (by simp : ¬([c6ac1''] = []))]
  simp only [hpair]
  rfl

/-- The first C3 pairing passes every gate. -/
theorem c3_gate1 : GateProp haversine_distance 0 c3I1 c3toi1 := by
  refine ⟨?_, ?_, ?_, ?_, ?_⟩
  · rw [show c3toi1.2.curPos = ((0 : ℚ), (0 : ℚ)) from by decide,
      show c3I1.curPos = ((0 : ℚ), (0 : ℚ)) from by decide, haversine_self]
    norm_num
  · show qabs ((300 : ℚ) - 401) < 150
    rw [qabs, if_pos (by norm_num : (300 : ℚ) - 401 < 0)]
    norm_num
  · decide
  · decide
  · unfold startedFarApart
    rw [show sfaPick (sfaRef c3I1 c3toi1.2) c3I1.coords = ((180 : ℚ), (0 : ℚ)) from by decide,
      show sfaPick (sfaRef c3I1 c3toi1.2) c3toi1.2.coords = ((0 : ℚ), (0 : ℚ)) from by decide,
      haversine_far]
    exact far_gt_threshold

/-- The second C3 pairing passes every gate. -/
theorem c3_gate2 : GateProp haversine_distance 600 c3I2 c3toi2 := by
  refine ⟨?_, ?_, ?_, ?_, ?_⟩
  · rw [show c3toi2.2.curPos = ((0 : ℚ), (0 : ℚ)) from by decide,
      show c3I2.curPos = ((0 : ℚ), (0 : ℚ)) from by decide, haversine_self]
    norm_num
  · show qabs ((300 : ℚ) - 401) < 150
    rw [qabs, if_pos (by norm_num : (300 : ℚ) - 401 < 0)]
    norm_num
  · decide
  · decide
  · unfold startedFarApart
    rw [show sfaPick (sfaRef c3I2 c3toi2.2) c3I2.coords = ((180 : ℚ), (0 : ℚ)) from by decide,
      show sfaPick (sfaRef c3I2 c3toi2.2) c3toi2.2.coords = ((0 : ℚ), (0 : ℚ)) from by decide,
      haversine_far]
    exact far_gt_threshold

/-- First C3 tick: the pair (`h1`, `h2`) intercepts at `now = 0`. -/
theorem c3_tick1 : processResp haversine_distance State.init c3r1 = some c3s1 := by
  unfold processResp
  rw [show upsertClassify c3r1.now c3r1.aircraft State.init.aircraft [] [] =
      some ([("h1", c3I1), ("h2", c3T1)], [c3I1], [c3toi1]) from by decide,
    Option.map_some']
  have hpair : pairAll haversine_distance c3r1.now [c3I1] [c3toi1]
      (State.init.num_ac_processed, State.init.interceptions) =
      (0 + 1, [] ++ [mkEv haversine_distance 0 c3I1 c3toi1]) :=
    pairAll_single haversine_distance 0 c3I1 c3toi1 0 []
      (by rw [show c3I1.curPos = ((0 : ℚ), (0 : ℚ)) from by decide]
          norm_num [dist2, maxDistDeg2, MAX_DIST_NM, c3toi1])
      c3_gate1 rfl
  unfold processRespCore
  rw [if_neg (by simp : ¬([c3I1] = []))]
  simp only [hpair]
  rfl

/-- Second C3 tick: ten minutes later the same pair intercepts again (the
dedup window has just expired). -/
theorem c3_tick2 : processResp haversine_distance c3s1 c3r2 = some c3s2 := by
  unfold processResp
  rw [show upsertClassify c3r2.now c3r2.aircraft c3s1.aircraft [] [] =
      some ([("h1", c3I2), ("h2", c3T2)], [c3I2], [c3toi2]) from by decide,
    Option.map_some']
  have hpair : pairAll haversine_distance c3r2.now [c3I2] [c3toi2]
      (c3s1.num_ac_processed, c3s1.interceptions) =
      (1 + 1, [c3ev1] ++ [mkEv haversine_distance 600 c3I2 c3toi2]) :=
    pairAll_single haversine_distance 600 c3I2 c3toi2 1 [c3ev1]
      (by rw [show c3I2.curPos = ((0 : ℚ), (0 : ℚ)) from by decide]
          norm_num [dist2, maxDistDeg2, MAX_DIST_NM, c3toi2])
      c3_gate2 rfl
  unfold processRespCore
  rw [if_neg (by simp : ¬([c3I2] = []))]
  simp only [hpair]
  rfl

/-- The C3 witness run reaches `c3s2`. -/
theorem c3_run : runAll haversine_distance c3resps = some c3s2 := by
  unfold runAll c3resps
  simp only [List.foldl_cons, List.foldl_nil, Option.some_bind]
  rw [c3_tick1, Option.some_bind, c3_tick2]

/-! ### Hex bookkeeping for the no-self-pair analysis -/

/-- `Ac::new` stamps the record's hex. -/
theorem Ac.new_hex (now : ℤ) (r : Rec) (ac : Ac) (h : Ac.new now r = some ac) :
    ac.hex = r.hex := by
  unfold Ac.new at h
  repeat' split at h
  all_goals first
    | exact Option.noConfusion h
    | (injection h with h; subst h; rfl)

/-- `Ac::update` never changes the hex. -/
theorem Ac.update_hex (ac : Ac) (now : ℤ) (r : Rec) (ac' : Ac)
    (h : ac.update now r = some ac') : ac'.hex = ac.hex := by
  unfold Ac.update at h
  repeat' split at h
  all_goals first
    | exact Option.noConfusion h
    | (injection h with h; subst h; split <;> rfl)

/-- A successful table lookup returns an aircraft carrying the looked-up
hex. -/
theorem lookupAc_hex (m : List (String × Ac)) (hx : String) (ac : Ac)
    (hm : MapKeyed m) (hl : lookupAc m hx = some ac) : ac.hex = hx := by
  unfold lookupAc at hl
  rcases Option.map_eq_some'.mp hl with ⟨p, hp, hpe⟩
  have hmem := List.mem_of_find?_eq_some hp
  have hkey := List.find?_some hp
  rw [← hpe, hm p hmem]
  exact beq_iff_eq.mp hkey

/-- The insert-or-update step keeps the table keyed. -/
theorem upsertAc_keyed (now : ℤ) (r : Rec) (m m' : List (String × Ac))
    (hm : MapKeyed m) (h : upsertAc now r m = some m') : MapKeyed m' := by
  unfold upsertAc at h
  cases hl : lookupAc m r.hex with
  | some ac =>
    rw [hl] at h
    rcases Option.map_eq_some'.mp h with ⟨ac', hup, rfl⟩
    intro p hp
    rcases List.mem_map.mp hp with ⟨q, hq, hfq⟩
    by_cases hqk : (q.1 == r.hex) = true
    · rw [if_pos hqk] at hfq
      rw [← hfq]
      show ac'.hex = q.1
      rw [Ac.update_hex ac now r ac' hup, lookupAc_hex m r.hex ac hm hl]
      exact (beq_iff_eq.mp hqk).symm
    · rw [if_neg hqk] at hfq
      rw [← hfq]
      exact hm q hq
  | none =>
    rw [hl] at h
    rcases Option.map_eq_some'.mp h with ⟨acn, hnew, rfl⟩
    intro p hp
    rcases List.mem_append.mp hp with hp | hp
    · exact hm p hp
    · rcases List.mem_singleton.mp hp with rfl
      exact Ac.new_hex now r acn hnew

/-- Staleness pruning keeps the table keyed. -/
theorem retainFresh_keyed (now : ℤ) (m : List (String × Ac)) (hm : MapKeyed m) :
    MapKeyed (retainFresh now m) := by
  intro p hp
  exact hm p (List.mem_of_mem_filter hp)

/-- Through the classification loop of a duplicate-free response, the fast
movers and the indexed targets never share a hex (and the table stays
keyed). -/
theorem upsertClassify_cross (now : ℤ) :
    ∀ (recs : List Rec) (m : List (String × Ac)) (fms : List Ac) (tois : List Toi)
      (m' : List (String × Ac)) (fms' : List Ac) (tois' : List Toi),
      MapKeyed m →
      (recs.map Rec.hex).Nodup →
      (∀ fm ∈ fms, ∀ t ∈ tois, fm.hex ≠ t.2.hex) →
      (∀ fm ∈ fms, fm.hex ∉ recs.map Rec.hex) →
      (∀ t ∈ tois, t.2.hex ∉ recs.map Rec.hex) →
      upsertClassify now recs m fms tois = some (m', fms', tois') →
      MapKeyed m' ∧ ∀ fm ∈ fms', ∀ t ∈ tois', fm.hex ≠ t.2.hex := by
  intro recs
  induction recs with
  | nil =>
    intro m fms tois m' fms' tois' hm _ hcross _ _ h
    have h' : some (m, fms, tois) = some (m', fms', tois') := h
    injection h' with h'
    injection h' with h1 h2
    injection h2 with h2 h3
    subst h1; subst h2; subst h3
    exact ⟨hm, hcross⟩
  | cons r rs ih =>
    intro m fms tois m' fms' tois' hm hnodup hcross hfnot htnot h
    simp only [List.map_cons, List.nodup_cons] at hnodup
    simp only [List.map_cons, List.mem_cons, not_or] at hfnot htnot
    unfold upsertClassify at h
    by_cases hg : (r.lat.isSome ∧ r.lon.isSome ∧ r.ground_speed_knots.isSome ∧
        r.geometric_altitude.isSome)
    · rw [if_pos hg] at h
      split at h
      · exact Option.noConfusion h
      · rename_i m2 hup
        have hm2 : MapKeyed m2 := upsertAc_keyed now r m m2 hm hup
        split at h
        · exact Option.noConfusion h
        · rename_i ac hlk
          have hachex : ac.hex = r.hex := lookupAc_hex m2 r.hex ac hm2 hlk
          split at h
          · -- Interceptor branch
            refine ih m2 (fms ++ [ac]) tois m' fms' tois' hm2 hnodup.2 ?_ ?_
              (fun t ht => (htnot t ht).2) h
            · intro fm hfm t ht
              rcases List.mem_append.mp hfm with hfm | hfm
              · exact hcross fm hfm t ht
              · rcases List.mem_singleton.mp hfm with rfl
                rw [hachex]
                exact fun heq => (htnot t ht).1 heq.symm
            · intro fm hfm
              rcases List.mem_append.mp hfm with hfm | hfm
              · exact (hfnot fm hfm).2
              · rcases List.mem_singleton.mp hfm with rfl
                rw [hachex]
                exact hnodup.1
          · -- Target branch
            refine ih m2 fms (tois ++ [(ac.curPos, ac)]) m' fms' tois' hm2 hnodup.2 ?_
              (fun fm hfm => (hfnot fm hfm).2) ?_ h
            · intro fm hfm t ht
              rcases List.mem_append.mp ht with ht | ht
              · exact hcross fm hfm t ht
              · rcases List.mem_singleton.mp ht with rfl
                show fm.hex ≠ ac.hex
                rw [hachex]
                exact (hfnot fm hfm).1
            · intro t ht
              rcases List.mem_append.mp ht with ht | ht
              · exact (htnot t ht).2
              · rcases List.mem_singleton.mp ht with rfl
                show ac.hex ∉ _
                rw [hachex]
                exact hnodup.1
          · -- Other branch
            exact ih m2 fms tois m' fms' tois' hm2 hnodup.2 hcross
              (fun fm hfm => (hfnot fm hfm).2) (fun t ht => (htnot t ht).2) h
    · rw [if_neg hg] at h
      exact ih m fms tois m' fms' tois' hm hnodup.2 hcross
        (fun fm hfm => (hfnot fm hfm).2) (fun t ht => (htnot t ht).2) h

/-- Processing a duplicate-free response preserves the keyed-table invariant
and never emits a self-pair. -/
theorem processResp_no_self (hav : Pt → Pt → ℝ) (s : State) (r : Resp) (s' : State)
    (hkeyed : MapKeyed s.aircraft) (hnodup : NoDupHexes r)
    (hold : ∀ e ∈ s.interceptions, e.interceptor.hex ≠ e.target.hex)
    (h : processResp hav s r = some s') :
    MapKeyed s'.aircraft ∧ ∀ e ∈ s'.interceptions, e.interceptor.hex ≠ e.target.hex := by
  unfold processResp at h
  rcases Option.map_eq_some'.mp h with ⟨out, hout, rfl⟩
  obtain ⟨hk', hcross⟩ := upsertClassify_cross r.now r.aircraft s.aircraft [] []
    out.1 out.2.1 out.2.2 hkeyed hnodup (by simp) (by simp) (by simp) hout
  unfold processRespCore
  by_cases hfm : out.2.1 = []
  · rw [if_pos hfm]
    exact ⟨retainFresh_keyed r.now out.1 hk', hold⟩
  · rw [if_neg hfm]
    refine ⟨retainFresh_keyed r.now out.1 hk', ?_⟩
    show ∀ e ∈ (pairAll hav r.now out.2.1 out.2.2 (s.num_ac_processed, s.interceptions)).2, _
    rcases pairAll_append_spec hav r.now out.2.1 out.2.2
      (s.num_ac_processed, s.interceptions) with ⟨Δ, hΔeq, hΔ⟩
    rw [hΔeq]
    intro e he
    rcases List.mem_append.mp he with he | he
    · exact hold e he
    · rcases hΔ e he with ⟨fm, t, hfm', ht', rfl, _, _⟩
      exact hcross fm hfm' t ht'

/-- Any reachable event log is pairwise dedup-separated. -/
theorem runAll_pairwise (resps : List Resp) (s : State)
    (h : runAll haversine_distance resps = some s) :
    s.interceptions.Pairwise sep600 := by
  refine runAll_inv haversine_distance (fun st => st.interceptions.Pairwise sep600)
    resps (by simp [State.init]) ?_ s h
  intro s0 r s0' _ hp hpr
  unfold processResp at hpr
  rcases Option.map_eq_some'.mp hpr with ⟨out, _, rfl⟩
  unfold processRespCore
  by_cases hfm : out.2.1 = []
  · rw [if_pos hfm]
    exact hp
  · rw [if_neg hfm]
    exact pairAll_pairwise haversine_distance r.now out.2.1 out.2.2
      (s0.num_ac_processed, s0.interceptions) hp

/-- `firstMin` of a non-empty list exists. -/
theorem firstMin_exists {α : Type} (k : α → ℤ) (l : List α) (hl : l ≠ []) :
    ∃ x, firstMin k l = some x := by
  cases l with
  | nil => exact absurd rfl hl
  | cons a as =>
    cases hf : firstMin k (a :: as) with
    | none => exact absurd hf (firstMin_ne_none k a as)
    | some x => exact ⟨x, rfl⟩

/-- The position `started_far_apart` selects is the first entry minimising
the absolute time delta. -/
theorem sfaPick_firstMin (tref : ℤ) (l : List Entry) (e : Entry)
    (h : firstMin (fun c => zabs (c.1 - tref)) l = some e) :
    sfaPick tref l = e.2 := by
  unfold sfaPick
  rw [← sortByKey_head_eq_firstMin] at h
  cases hs : sortByKey (fun c => zabs (c.1 - tref)) l with
  | nil => rw [hs] at h; exact Option.noConfusion h
  | cons a as =>
    rw [hs] at h
    injection h with h
    rw [show (a :: as).headD ((0 : ℤ), ((0 : ℚ), (0 : ℚ))) = a from rfl, h]

/-! ### The claims -/

/-- C1 (code bug): the spec says an aircraft record missing any required
field — `seen_pos` included — is skipped for the tick with no exception, but
the source's field guard checks only `lat`, `lon`, `ground_speed_knots` and
`geometric_altitude`; a record carrying those four with `seen_pos` absent
reaches `Ac::new(..).unwrap()` (or `seen_pos.unwrap()` in `Ac::update`) and
panics, modelled as `none`. -/
theorem c1_theorem : processResp haversine_distance State.init c1resp = none := rfl

/-- C2 counterexample: updating an aircraft whose `cur_alt` is 5 with a
record carrying neither altitude sets `cur_alt` to 0 instead of leaving it
unchanged. -/
theorem c2_counterexample :
    (Ac.update c2ac 0 c2rec).map Ac.cur_alt = some 0 ∧ c2ac.cur_alt = 5 :=
  ⟨rfl, rfl⟩

/-- C2 (amended): on every successful `Ac::update`, `cur_alt` becomes the
record's geometric altitude when present, else the barometric altitude with
`OnGround` as 0, else 0 — never the previous value. -/
theorem c2_theorem (ac : Ac) (now : ℤ) (r : Rec) (ac' : Ac)
    (h : ac.update now r = some ac') : ac'.cur_alt = altFallback r := by
  unfold Ac.update at h
  repeat' split at h
  all_goals first
    | exact Option.noConfusion h
    | (injection h with h; subst h; simp [altFallback, *])

theorem c2_witness :
    Ac.update c2ac 0 c2rec = some c2ac' ∧ c2ac'.cur_alt = altFallback c2rec :=
  ⟨rfl, c2_theorem c2ac 0 c2rec c2ac' rfl⟩

/-- C3: in any run, two emitted events for the same (interceptor, target)
hex pair with distinct times are at least ten minutes (600 s) apart. -/
theorem c3_theorem (resps : List Resp) (s : State)
    (h : runAll haversine_distance resps = some s) (e1 e2 : Interception)
    (h1 : e1 ∈ s.interceptions) (h2 : e2 ∈ s.interceptions)
    (hpair : samePair e1 e2) (hlt : e1.time < e2.time) :
    600 ≤ e2.time - e1.time := by
  have hpw := runAll_pairwise resps s h
  rcases pairwise_cases hpw h1 h2 with heq | hr | hr
  · rw [heq] at hlt
    omega
  · have := hr hpair
    omega
  · have := hr ⟨hpair.1.symm, hpair.2.symm⟩
    omega

theorem c3_witness :
    (runAll haversine_distance c3resps = some c3s2 ∧
      c3ev1 ∈ c3s2.interceptions ∧ c3ev2 ∈ c3s2.interceptions ∧
      samePair c3ev1 c3ev2 ∧ c3ev1.time < c3ev2.time) ∧
    600 ≤ c3ev2.time - c3ev1.time :=
  ⟨⟨c3_run, by simp [c3s2], by simp [c3s2], ⟨rfl, rfl⟩,
      show (0 : ℤ) < 600 by norm_num⟩,
    c3_theorem c3resps c3s2 c3_run c3ev1 c3ev2 (by simp [c3s2]) (by simp [c3s2])
      ⟨rfl, rfl⟩ (show (0 : ℤ) < 600 by norm_num)⟩

/-- C4 counterexample: one response whose 41 records all carry hex `a`
makes `a` both an indexed target (after record 1) and a fast mover (after
record 41), and the engine emits an event pairing `a` with itself — the
source has no `I.hex == T.hex` guard. -/
theorem c4_counterexample :
    (processResp haversine_distance State.init c4resp).map
      (fun s => s.interceptions.map (fun e => (e.interceptor.hex, e.target.hex))) =
      some [("a", "a")] := by
  unfold processResp
  rw [c4_classify, Option.map_some']
  have hpair : pairAll haversine_distance c4resp.now [c4I] [c4toi]
      (State.init.num_ac_processed, State.init.interceptions) =
      (0 + 1, [] ++ [mkEv haversine_distance 0 c4I c4toi]) :=
    pairAll_single haversine_distance 0 c4I c4toi 0 [] c4_near c4_gate rfl
  unfold processRespCore
  rw [if_neg (by simp : ¬([c4I] = []))]
  simp only [hpair]
  rfl

/-- C4 (amended): when no response repeats a hex, every emitted event has
`interceptor.hex ≠ target.hex`; with duplicate-hex records self-pairs are
possible because the source has no explicit guard. -/
theorem c4_theorem (resps : List Resp) (hnd : ∀ r ∈ resps, NoDupHexes r)
    (s : State) (h : runAll haversine_distance resps = some s) :
    ∀ e ∈ s.interceptions, e.interceptor.hex ≠ e.target.hex := by
  have hrun := runAll_inv haversine_distance
    (fun st => MapKeyed st.aircraft ∧
      ∀ e ∈ st.interceptions, e.interceptor.hex ≠ e.target.hex)
    resps ⟨fun p hp => absurd hp (List.not_mem_nil p), by simp [State.init]⟩
    (fun s0 r s0' hr hp hpr =>
      processResp_no_self haversine_distance s0 r s0' hp.1 (hnd r hr) hp.2 hpr)
    s h
  exact hrun.2

theorem c4_witness :
    ((∀ r ∈ [c9resp], NoDupHexes r) ∧
      runAll haversine_distance [c9resp] = some c9state') ∧
    ∀ e ∈ c9state'.interceptions, e.interceptor.hex ≠ e.target.hex := by
  have h1 : ∀ r ∈ [c9resp], NoDupHexes r := by
    intro r hr
    rcases List.mem_singleton.mp hr with rfl
    show (c9resp.aircraft.map Rec.hex).Nodup
    decide
  have h2 : runAll haversine_distance [c9resp] = some c9state' := by
    unfold runAll
    simp only [List.foldl_cons, List.foldl_nil, Option.some_bind]
    rfl
  exact ⟨⟨h1, h2⟩, c4_theorem [c9resp] h1 c9state' h2⟩

/-- C5: `Ac::class` returns `Interceptor` iff `time_seen_fast` is set, less
than 3 minutes old, `fast_count > 10` and not on ground; `Target` iff
`80 < cur_speed < 350` and not on ground and the interceptor predicate
fails; and `Other` otherwise. -/
theorem c5_theorem (ac : Ac) (now : ℤ) :
    (ac.classify now = Class.Interceptor ↔ interceptorPred ac now) ∧
    (ac.classify now = Class.Target ↔ targetPred ac ∧ ¬ interceptorPred ac now) ∧
    (ac.classify now = Class.Other ↔ ¬ interceptorPred ac now ∧ ¬ targetPred ac) := by
  have hgi : ac.interceptorGate now = true ↔ interceptorPred ac now := by
    unfold Ac.interceptorGate interceptorPred INTERCEPTOR_TIMEOUT_MINS
    cases htsf : ac.time_seen_fast with
    | none => simp
    | some tsf =>
      simp only [Bool.and_eq_true, decide_eq_true_eq, Bool.not_eq_true',
        Option.some.injEq]
      constructor
      · rintro ⟨⟨hmin, hfc⟩, hgr⟩
        exact ⟨tsf, rfl, (numMinutes_lt_three_iff _).mp hmin, hfc, hgr⟩
      · rintro ⟨t, ht, hmin, hfc, hgr⟩
        subst ht
        exact ⟨⟨(numMinutes_lt_three_iff _).mpr hmin, hfc⟩, hgr⟩
  have hgt : ac.targetGate = true ↔ targetPred ac := by
    unfold Ac.targetGate targetPred
    simp [Bool.and_eq_true, decide_eq_true_eq, Bool.not_eq_true', and_assoc]
  unfold Ac.classify
  by_cases hi : ac.interceptorGate now = true
  · rw [if_pos hi]
    have hip : interceptorPred ac now := hgi.mp hi
    refine ⟨iff_of_true rfl hip, iff_of_false (by decide) ?_,
      iff_of_false (by decide) ?_⟩
    · rintro ⟨_, hni⟩
      exact hni hip
    · rintro ⟨hni, _⟩
      exact hni hip
  · rw [if_neg hi]
    have hni : ¬ interceptorPred ac now := fun hp => hi (hgi.mpr hp)
    by_cases ht : ac.targetGate = true
    · rw [if_pos ht]
      have htp := hgt.mp ht
      refine ⟨iff_of_false (by decide) hni, iff_of_true rfl ⟨htp, hni⟩,
        iff_of_false (by decide) ?_⟩
      rintro ⟨_, hnt⟩
      exact hnt htp
    · rw [if_neg ht]
      have hnt : ¬ targetPred ac := fun hp => ht (hgt.mpr hp)
      exact ⟨iff_of_false (by decide) hni,
        iff_of_false (by decide) (fun hp => hnt hp.1),
        iff_of_true rfl ⟨hni, hnt⟩⟩

/-- C6 counterexample: processing `c6resp` twice from `c6state` emits no
event the first time but one event the second time (aircraft `h1` crosses
`fast_count > 10` only during the second processing), so reprocessing the
same snapshot can append additional events. -/
theorem c6_counterexample :
    ((processResp haversine_distance c6state c6resp).bind
      (fun s1 => (processResp haversine_distance s1 c6resp).map
        (fun s2 => (s1.interceptions.length, s2.interceptions.length)))) =
      some (0, 1) := by
  rw [c6_tick1, Option.some_bind, c6_tick2, Option.map_some']
  rfl

/-- C6 (amended): the second processing of the same response appends no
event whose (interceptor, target) hex pair was emitted by the first
processing — the ten-minute dedup window covers those pairs; events for
pairs newly classified during the second processing can still appear. -/
theorem c6_theorem (s : State) (r : Resp) (s1 s2 : State)
    (h1 : processResp haversine_distance s r = some s1)
    (h2 : processResp haversine_distance s1 r = some s2) :
    ∀ e2 ∈ s2.interceptions.drop s1.interceptions.length,
    ∀ e1 ∈ s1.interceptions.drop s.interceptions.length, ¬ samePair e2 e1 := by
  rcases processResp_append haversine_distance s r s1 h1 with ⟨Δ1, hΔ1eq, hΔ1⟩
  rcases processResp_append haversine_distance s1 r s2 h2 with ⟨Δ2, hΔ2eq, hΔ2⟩
  rw [hΔ2eq, hΔ1eq]
  simp only [List.drop_left]
  intro e2 he2 e1 he1 hsp
  have h1t := (hΔ1 e1 he1).1
  have he1' : e1 ∈ s1.interceptions := by
    rw [hΔ1eq]
    exact List.mem_append_right _ he1
  have := (hΔ2 e2 he2).2.1 e1 he1' hsp.1.symm hsp.2.symm
  omega

theorem c6_witness :
    (processResp haversine_distance c6state c6resp = some c6state1 ∧
      processResp haversine_distance c6state1 c6resp = some c6state2) ∧
    (∀ e2 ∈ c6state2.interceptions.drop c6state1.interceptions.length,
     ∀ e1 ∈ c6state1.interceptions.drop c6state.interceptions.length,
       ¬ samePair e2 e1) :=
  ⟨⟨c6_tick1, c6_tick2⟩,
    c6_theorem c6state c6resp c6state1 c6state2 c6_tick1 c6_tick2⟩

/-- C7: `started_far_apart` selects from each non-empty history the first
position minimising the absolute time delta to
`t_ref = max(I.coords.first.time, T.coords.first.time)` (that maximum is
`sfaRef` by definition) and returns true iff the Haversine distance between
the selected positions exceeds `10 × 1609.34 = 16093.4` meters. -/
theorem c7_theorem (fm t : Ac) (hf : fm.coords ≠ []) (ht : t.coords ≠ []) :
    ∃ ef et : Entry, ef ∈ fm.coords ∧ et ∈ t.coords ∧
      (∀ c ∈ fm.coords, zabs (ef.1 - sfaRef fm t) ≤ zabs (c.1 - sfaRef fm t)) ∧
      (∀ c ∈ t.coords, zabs (et.1 - sfaRef fm t) ≤ zabs (c.1 - sfaRef fm t)) ∧
      (startedFarApart haversine_distance fm t ↔
        haversine_distance ef.2 et.2 > 10 * (160934 / 100 : ℝ)) := by
  obtain ⟨ef, hef⟩ := firstMin_exists (fun c => zabs (c.1 - sfaRef fm t)) fm.coords hf
  obtain ⟨et, het⟩ := firstMin_exists (fun c => zabs (c.1 - sfaRef fm t)) t.coords ht
  obtain ⟨hefmem, hefmin⟩ := firstMin_spec _ _ _ hef
  obtain ⟨hetmem, hetmin⟩ := firstMin_spec _ _ _ het
  refine ⟨ef, et, hefmem, hetmem, hefmin, hetmin, ?_⟩
  unfold startedFarApart
  rw [sfaPick_firstMin _ _ _ hef, sfaPick_firstMin _ _ _ het]

theorem c7_witness :
    (c7fm.coords ≠ [] ∧ c7t.coords ≠ []) ∧
    ∃ ef et : Entry, ef ∈ c7fm.coords ∧ et ∈ c7t.coords ∧
      (∀ c ∈ c7fm.coords, zabs (ef.1 - sfaRef c7fm c7t) ≤ zabs (c.1 - sfaRef c7fm c7t)) ∧
      (∀ c ∈ c7t.coords, zabs (et.1 - sfaRef c7fm c7t) ≤ zabs (c.1 - sfaRef c7fm c7t)) ∧
      (startedFarApart haversine_distance c7fm c7t ↔
        haversine_distance ef.2 et.2 > 10 * (160934 / 100 : ℝ)) :=
  ⟨⟨by decide, by decide⟩, c7_theorem c7fm c7t (by decide) (by decide)⟩

/-- C8: every emitted event has `lateral_separation_ft < 500 × 3.28084` and
`vertical_separation_ft < 500`, because emission requires the Haversine
distance to be below 500 meters and the absolute altitude difference below
500 feet. -/
theorem c8_theorem (resps : List Resp) (s : State)
    (h : runAll haversine_distance resps = some s) :
    ∀ e ∈ s.interceptions,
      e.lateral_separation_ft < 500 * (328084 / 100000 : ℝ) ∧
      e.vertical_separation_ft < 500 := by
  refine runAll_inv haversine_distance
    (fun st => ∀ e ∈ st.interceptions,
      e.lateral_separation_ft < 500 * (328084 / 100000 : ℝ) ∧
      e.vertical_separation_ft < 500)
    resps (by simp [State.init]) ?_ s h
  intro s0 r s0' _ hp hpr
  rcases processResp_append haversine_distance s0 r s0' hpr with ⟨Δ, hΔeq, hΔ⟩
  rw [hΔeq]
  intro e he
  rcases List.mem_append.mp he with he | he
  · exact hp e he
  · exact ⟨(hΔ e he).2.2.1, (hΔ e he).2.2.2⟩

theorem c8_witness :
    runAll haversine_distance c3resps = some c3s2 ∧
    ∀ e ∈ c3s2.interceptions,
      e.lateral_separation_ft < 500 * (328084 / 100000 : ℝ) ∧
      e.vertical_separation_ft < 500 :=
  ⟨c3_run, c8_theorem c3resps c3s2 c3_run⟩

/-- C9 counterexample: a response with one target and no interceptors
leaves `num_ac_indexed` at 0 even though the tick indexed one target — the
increment sits after the empty-fast-movers early return, not before it. -/
theorem c9_counterexample :
    (processResp haversine_distance State.init c9resp).map State.num_ac_indexed =
      some 0 ∧
    (upsertClassify c9resp.now c9resp.aircraft State.init.aircraft [] []).map
      (fun out => out.2.2.length) = some 1 :=
  ⟨rfl, rfl⟩

/-- C9 (amended): the `num_ac_indexed` increment happens after the
empty-fast-movers early return: the counter is unchanged on a tick with no
interceptors and grows by the number of indexed targets otherwise. -/
theorem c9_theorem (s : State) (r : Resp)
    (out : List (String × Ac) × List Ac × List Toi) (s' : State)
    (hcl : upsertClassify r.now r.aircraft s.aircraft [] [] = some out)
    (h : processResp haversine_distance s r = some s') :
    (out.2.1 = [] → s'.num_ac_indexed = s.num_ac_indexed) ∧
    (out.2.1 ≠ [] → s'.num_ac_indexed = s.num_ac_indexed + out.2.2.length) := by
  unfold processResp at h
  rw [hcl, Option.map_some'] at h
  injection h with h
  subst h
  unfold processRespCore
  constructor
  · intro he
    rw [if_pos he]
  · intro he
    rw [if_neg he]

theorem c9_witness :
    (upsertClassify c9resp.now c9resp.aircraft State.init.aircraft [] [] =
        some c9out ∧
      processResp haversine_distance State.init c9resp = some c9state') ∧
    ((c9out.2.1 = [] → c9state'.num_ac_indexed = State.init.num_ac_indexed) ∧
     (c9out.2.1 ≠ [] →
       c9state'.num_ac_indexed = State.init.num_ac_indexed + c9out.2.2.length)) :=
  ⟨⟨rfl, rfl⟩, c9_theorem State.init c9resp c9out c9state' rfl rfl⟩

/-- C10: when a record carries no `ground_speed_knots`, a successful
`Ac::update` leaves `cur_speed`, `max_speed`, `time_seen_fast` and
`fast_count` unchanged. -/
theorem c10_theorem (ac : Ac) (now : ℤ) (r : Rec) (ac' : Ac)
    (hgs : r.ground_speed_knots = none) (h : ac.update now r = some ac') :
    ac'.cur_speed = ac.cur_speed ∧ ac'.max_speed = ac.max_speed ∧
      ac'.time_seen_fast = ac.time_seen_fast ∧ ac'.fast_count = ac.fast_count := by
  unfold Ac.update at h
  simp only [hgs] at h
  repeat' split at h
  all_goals first
    | exact Option.noConfusion h
    | (injection h with h; subst h; exact ⟨rfl, rfl, rfl, rfl⟩)

theorem c10_witness :
    (c10rec.ground_speed_knots = none ∧ Ac.update c10ac 5 c10rec = some c10ac') ∧
    (c10ac'.cur_speed = c10ac.cur_speed ∧ c10ac'.max_speed = c10ac.max_speed ∧
      c10ac'.time_seen_fast = c10ac.time_seen_fast ∧
      c10ac'.fast_count = c10ac.fast_count) :=
  ⟨⟨rfl, rfl⟩, c10_theorem c10ac 5 c10rec c10ac' rfl rfl⟩

end Tracon
